import Mathlib

/-!
Verification of the Be-LostMedia backend: the engagement-ranked feed engine
(`internal/repository/post_repo.go`, `internal/util/redis.go`), the realtime
hub (`Hub` and `Client` in the websocket package), and the mutation services
that keep the engagement score cache fresh (`likeService`, `commentService`,
`postViewService`).

Go `int64` arithmetic is modelled over `Int` (every quantity involved is a
database row count or a Unix timestamp, far below overflow), and the
`float64` composite ordering key is modelled exactly over `ℚ`: every value
the code puts in a `float64` here (counts, `score*1000000.0`,
`created_at.Unix()/1000000.0`) is a small integer or an exact decimal
division, so rational arithmetic is the faithful idealisation the spec
reasons with.
-/

namespace LostMedia

/-! ### Engagement raw score: the three computation sites

`post_repo.go` computes `likes*2 + comments*3 + views*1` at three places:
the bulk rebuild inside `FindFeedByEngagement` (line 267), the in-memory
fallback `findFeedByEngagementFallback` (line 362), and the incremental
`UpdatePostEngagementScore` (line 415). Each definition transcribes one
site. -/

/-- Raw score as computed on the bulk rebuild path
(`FindFeedByEngagement`, post_repo.go line 267). -/
def rebuildRawScore (likeCount commentCount viewCount : Int) : Int :=
  (likeCount * 2) + (commentCount * 3) + (viewCount * 1)

/-- Raw score as computed on the degraded in-memory fallback path
(`findFeedByEngagementFallback`, post_repo.go line 362). -/
def fallbackRawScore (likeCount commentCount viewCount : Int) : Int :=
  (likeCount * 2) + (commentCount * 3) + (viewCount * 1)

/-- Raw score as computed on the incremental single-post path
(`UpdatePostEngagementScore`, post_repo.go line 415). -/
def incrementalRawScore (likeCount commentCount viewCount : Int) : Int :=
  (likeCount * 2) + (commentCount * 3) + (viewCount * 1)

/-! ### Composite ordering key

`tieBreakScore := float64(post.CreatedAt.Unix()) / 1000000.0` and
`finalScore := score*1000000.0 + tieBreakScore` (post_repo.go lines
278-279 and 428-429), modelled exactly over `ℚ`. -/

/-- Tie-break term: the creation Unix timestamp normalised by `1000000`
(post_repo.go lines 278 and 428). -/
def tieBreakScore (createdAtUnix : Int) : ℚ :=
  (createdAtUnix : ℚ) / 1000000

/-- Composite ordering key stored in the Redis sorted set:
`raw_score * 1000000 + tieBreakScore` (post_repo.go lines 279 and 429). -/
def finalScore (rawScore : Int) (createdAtUnix : Int) : ℚ :=
  (rawScore : ℚ) * 1000000 + tieBreakScore createdAtUnix

/-! ### Ranked order on the two feed paths

A post as seen by the ranking code: its id, raw engagement score (`int64`
in Go) and creation Unix timestamp (`time.Time.After` on distinct wall
clock instants is `>` on the timestamp). -/

structure ScoredPost where
  id : String
  score : Int
  createdAtUnix : Int
deriving DecidableEq, Repr

/-- The comparator passed to `sort.Slice` in
`findFeedByEngagementFallback` (post_repo.go lines 371-376): higher score
first, and at equal score the later-created post first
(`CreatedAt.After`). -/
def fallbackLess (a b : ScoredPost) : Bool :=
  if a.score ≠ b.score then decide (a.score > b.score)
  else decide (a.createdAtUnix > b.createdAtUnix)

/-- The descending order a list must satisfy for Redis `ZREVRANGE` to
serve it: every earlier element's composite key is at least every later
element's (post_repo.go lines 279-283 insert posts with `finalScore` as
the sorted-set score and read them back highest first). -/
def sortedByCompositeDesc (l : List ScoredPost) : Prop :=
  l.Pairwise fun a b =>
    finalScore b.score b.createdAtUnix ≤ finalScore a.score a.createdAtUnix

/-- The order `sort.Slice` guarantees for the fallback path: no later
element is strictly less-than-before an earlier one under the Go
comparator. -/
def sortedByFallbackLess (l : List ScoredPost) : Prop :=
  l.Pairwise fun a b => fallbackLess b a = false

/-! ### Paginated windows over the ranked sequence

`FindFeedByEngagement(userID, limit, offset)` asks Redis for
`ZRevRange(key, offset, offset+limit-1)` (post_repo.go line 220); if that
is empty it rebuilds the index over the fixed population, queries again
(line 296), and if still empty slices the in-memory ranking
(lines 378-392). With the population held fixed, the ranked sequence is
one list `ranked` and all three steps read windows of it. -/

/-- Redis `ZREVRANGE key start stop` over the descending ranked list:
zero-based inclusive ranks, negative indexes counted from the end,
out-of-range indexes clamped, `start > stop` giving the empty list
(go-redis `ZRevRange`, redis.go line 120). -/
def zrevrange (ranked : List String) (start stop : Int) : List String :=
  let n : Int := ranked.length
  let s : Int := if start < 0 then max (n + start) 0 else start
  let e : Int := if stop < 0 then n + stop else min stop (n - 1)
  if s > e ∨ s ≥ n then []
  else (ranked.drop s.toNat).take (e - s + 1).toNat

/-- The manual slice `[offset, offset+limit)` of the in-memory ranking in
`findFeedByEngagementFallback` (post_repo.go lines 378-392): empty when
`offset` exceeds the length, `end` clamped to the length. -/
def fallbackSlice (ranked : List String) (limit offset : ℕ) : List String :=
  if offset > ranked.length then []
  else (ranked.drop offset).take (min (offset + limit) ranked.length - offset)

/-- One `FindFeedByEngagement` id window over the fixed ranked
population: the `ZRevRange` read, the post-rebuild re-read of the same
population, then the in-memory slice (post_repo.go lines 216-306). -/
def findFeedWindowIDs (ranked : List String) (limit offset : ℕ) : List String :=
  let ids := zrevrange ranked offset ((offset : Int) + limit - 1)
  if ids = [] then
    let ids₂ := zrevrange ranked offset ((offset : Int) + limit - 1)
    if ids₂ = [] then fallbackSlice ranked limit offset else ids₂
  else ids

/-- The concatenation of the first `numWindows` sequential windows
`(limit, 0), (limit, limit), (limit, 2*limit), …`. -/
def concatWindows (ranked : List String) (limit numWindows : ℕ) : List String :=
  (List.range numWindows).flatMap fun k => findFeedWindowIDs ranked limit (k * limit)

/-! ### The realtime hub

`Hub` keeps `clients map[string]map[*Client]bool`. All three control-loop
cases (`Hub.Run`) and the session constructor (`NewClient`) are modelled
per user: one user's entry is `none` when the user id is absent from the
outer map (the user is not listed by `GetOnlineUserIDs`) and
`some sessions` when present, where `sessions` lists the live `Client`
values keyed by identity. -/

/-- One websocket client: its identity (the `*Client` pointer in Go) and
its buffered outbound `send` queue contents. -/
structure Client where
  clientID : ℕ
  send : List ℕ
deriving DecidableEq, Repr

/-- Capacity of the per-client outbound queue:
`make(chan *Message, 256)` in `NewClient` (client.go line 44). -/
def clientSendCapacity : ℕ := 256

/-- A user's slot in `h.clients`: absent key, or the set of that user's
registered clients. -/
def HubEntry : Type := Option (List Client)

/-- `sessionCount` for one user: `len(h.clients[userID])`, with a missing
key counting as zero (`Hub.GetClientCount`). -/
def sessionCount (e : HubEntry) : ℕ := (e.getD []).length

/-- Whether `GetOnlineUserIDs` lists the user: true exactly when the key
is present in `h.clients` (cloudinary.go hub section, lines 281-289). -/
def listedOnline (e : HubEntry) : Bool := e.isSome

/-- The `register` case of `Hub.Run`: compute
`isNew := clients[uid] == nil || len(clients[uid]) == 0`, add the client
under its key, and emit an online presence event only when `isNew`.
Events are `true` for "online", `false` for "offline". -/
def hubRegister (e : HubEntry) (c : Client) : HubEntry × List Bool :=
  let isNew : Bool :=
    match e with
    | none => true
    | some inner => inner.isEmpty
  let inner := e.getD []
  let inner' := if inner.any fun t => t.clientID == c.clientID then inner else inner ++ [c]
  (some inner', if isNew then [true] else [])

/-- The `unregister` case of `Hub.Run`: if the client is registered,
remove it (closing its queue); if it was the user's last client, delete
the user's key and emit an offline presence event. -/
def hubUnregister (e : HubEntry) (c : Client) : HubEntry × List Bool :=
  match e with
  | none => (none, [])
  | some inner =>
    if inner.any fun t => t.clientID == c.clientID then
      let inner' := inner.filter fun t => t.clientID != c.clientID
      if inner'.isEmpty then (none, [false]) else (some inner', [])
    else (some inner, [])

/-- The per-client delivery policy inside the `broadcast` case of
`Hub.Run`: a non-blocking send onto each target client's queue; a full
queue means the client's queue is closed and the client deleted from the
inner map (the `default:` branch, cloudinary.go hub section lines
342-348). -/
def deliverToSessions : List Client → ℕ → List Client
  | [], _ => []
  | c :: rest, msg =>
    if c.send.length < clientSendCapacity then
      { c with send := c.send ++ [msg] } :: deliverToSessions rest msg
    else
      deliverToSessions rest msg

/-- Delivering one envelope to one user's entry: the inner map is
updated client by client, but the user's key is never deleted here, even
when every client has been evicted. -/
def hubSendToUser (e : HubEntry) (msg : ℕ) : HubEntry :=
  match e with
  | none => none
  | some inner => some (deliverToSessions inner msg)

/-- A register or unregister control event for one user, as drained by
the hub loop. -/
inductive HubOp where
  | register (c : Client)
  | unregister (c : Client)
deriving DecidableEq, Repr

/-- One step of the hub control loop on one user's entry. -/
def hubStep (e : HubEntry) : HubOp → HubEntry × List Bool
  | .register c => hubRegister e c
  | .unregister c => hubUnregister e c

/-- Running the hub loop over a sequence of control events,
concatenating the presence events it emits. -/
def hubRun (e : HubEntry) : List HubOp → HubEntry × List Bool
  | [] => (e, [])
  | op :: ops =>
    let step := hubStep e op
    let rest := hubRun step.1 ops
    (rest.1, step.2 ++ rest.2)

/-- The presence events the specification prescribes for a sequence of
operations: one "online" (`true`) exactly at each session-count
transition from zero to non-zero, one "offline" (`false`) exactly at
each transition from non-zero to zero, nothing otherwise. Stated from
the claim's words, to be compared with what `hubRun` emits. -/
def specTransitionEvents (e : HubEntry) : List HubOp → List Bool
  | [] => []
  | op :: ops =>
    let e' := (hubStep e op).1
    (if sessionCount e = 0 ∧ sessionCount e' ≠ 0 then [true]
     else if sessionCount e ≠ 0 ∧ sessionCount e' = 0 then [false]
     else [])
    ++ specTransitionEvents e' ops

/-- The presence invariant the spec states for `GetOnlineUserIDs`: a
user id is listed online exactly when the user has at least one
registered session. -/
def hubPresenceInvariant (e : HubEntry) : Prop :=
  listedOnline e = true ↔ sessionCount e ≠ 0

/-! ### The mutation services feeding the score engine

State touched by `likeService`, `commentService` and `postViewService`
together with the Redis engagement keys that
`UpdatePostEngagementScore` rewrites. Fields carry only what the
modelled code paths read. -/

/-- A post row (`model.Post`). -/
structure Post where
  id : String
  userID : String
  groupID : Option String
  createdAtUnix : Int
deriving DecidableEq, Repr

/-- A like row (`model.Like`). -/
structure Like where
  id : String
  userID : String
  targetType : String
  targetID : String
  reaction : String
deriving DecidableEq, Repr

/-- A comment row (`model.Comment`). -/
structure Comment where
  id : String
  postID : String
  userID : String
  parentID : Option String
  content : String
deriving DecidableEq, Repr

/-- A post-view row (`model.PostView`), unique per (post, user). -/
structure PostView where
  postID : String
  userID : String
deriving DecidableEq, Repr

/-- The engagement keys in Redis: the global sorted set
`post:engagement:sorted` (member, composite score) and the per-post
cached raw score. -/
structure EngagementRedis where
  sortedSet : List (String × ℚ)
  scoreCache : List (String × Int)
deriving DecidableEq, Repr

/-- Database rows plus the Redis engagement keys. -/
structure AppState where
  users : List String
  posts : List Post
  likes : List Like
  comments : List Comment
  views : List PostView
  redis : EngagementRedis
deriving DecidableEq, Repr

/-- `userRepo.FindByID`. -/
def findUser (s : AppState) (id : String) : Option String :=
  s.users.find? fun u => u == id

/-- `postRepo.FindByID` (no group restriction). -/
def findPost (s : AppState) (id : String) : Option Post :=
  s.posts.find? fun p => p.id == id

/-- Count of likes with `target_type = "post"` and the given target id
(post_repo.go lines 404-406). -/
def countPostLikes (s : AppState) (postID : String) : Int :=
  ((s.likes.filter fun l => l.targetType == "post" && l.targetID == postID).length : Int)

/-- Count of comments on the post (post_repo.go lines 407-409). -/
def countPostComments (s : AppState) (postID : String) : Int :=
  ((s.comments.filter fun c => c.postID == postID).length : Int)

/-- Count of view rows for the post (post_repo.go lines 410-412). -/
def countPostViews (s : AppState) (postID : String) : Int :=
  ((s.views.filter fun v => v.postID == postID).length : Int)

/-- Redis `ZADD`: update the member's score in place, or append the
member with its score. -/
def zadd (zset : List (String × ℚ)) (member : String) (score : ℚ) :
    List (String × ℚ) :=
  if zset.any fun p => p.1 == member then
    zset.map fun p => if p.1 == member then (member, score) else p
  else zset ++ [(member, score)]

/-- Redis `SET` on the per-post cached raw score key. -/
def setScoreCache (cache : List (String × Int)) (postID : String) (score : Int) :
    List (String × Int) :=
  if cache.any fun p => p.1 == postID then
    cache.map fun p => if p.1 == postID then (postID, score) else p
  else cache ++ [(postID, score)]

/-- `UpdatePostEngagementScore` (post_repo.go lines 397-431): count the
post's likes, comments and views, compute the raw score, look the post
up for its creation time (abort when the post is gone), then rewrite
the cached raw score and the sorted-set entry. The function makes no
check of the post's group membership before inserting into the global
sorted set. -/
def updatePostEngagementScore (s : AppState) (postID : String) : AppState :=
  let likeCount := countPostLikes s postID
  let commentCount := countPostComments s postID
  let viewCount := countPostViews s postID
  let score := incrementalRawScore likeCount commentCount viewCount
  match findPost s postID with
  | none => s
  | some post =>
    { s with redis :=
        { sortedSet := zadd s.redis.sortedSet postID (finalScore score post.createdAtUnix),
          scoreCache := setScoreCache s.redis.scoreCache postID score } }

/-- The reaction values `isValidReaction` accepts. -/
def validReactions : List String :=
  ["like", "love", "haha", "wow", "sad", "angry"]

/-- `likeService.LikePost`: validate user, post and reaction; update an
existing like's reaction in place, or create a new like row
(`newLikeID` stands for the generated row id). -/
def likeServiceLikePost (s : AppState) (userID postID reaction newLikeID : String) :
    Except String Like × AppState :=
  match findUser s userID with
  | none => (Except.error "user not found", s)
  | some _ =>
    match findPost s postID with
    | none => (Except.error "post not found", s)
    | some _ =>
      let reaction := if reaction == "" then "like" else reaction
      if ¬ validReactions.contains reaction then
        (Except.error "invalid reaction type", s)
      else
        match s.likes.find? fun l =>
            l.userID == userID && l.targetType == "post" && l.targetID == postID with
        | some existing =>
          if existing.reaction != reaction then
            let updated := { existing with reaction := reaction }
            (Except.ok updated,
              { s with likes := s.likes.map fun l =>
                  if l.id == existing.id then updated else l })
          else (Except.ok existing, s)
        | none =>
          let like : Like :=
            { id := newLikeID, userID := userID, targetType := "post",
              targetID := postID, reaction := reaction }
          (Except.ok like, { s with likes := s.likes ++ [like] })

/-- `likeService.UnlikePost`: find the like row for (user, post) and
delete it by id. -/
def likeServiceUnlikePost (s : AppState) (userID postID : String) :
    Except String Unit × AppState :=
  match s.likes.find? fun l =>
      l.userID == userID && l.targetType == "post" && l.targetID == postID with
  | none => (Except.error "like not found", s)
  | some like =>
    (Except.ok (), { s with likes := s.likes.filter fun l => l.id != like.id })

/-- The request body of `commentService.CreateComment`. -/
structure CreateCommentRequest where
  postID : String
  parentID : Option String
  content : String
deriving DecidableEq, Repr

/-- `commentService.CreateComment` (notification dispatch, which is
fire-and-forget I/O, omitted): validate user, post and optional parent
comment, insert the comment row, then call
`UpdatePostEngagementScore(req.PostID)` unconditionally. -/
def commentServiceCreateComment (s : AppState) (userID : String)
    (req : CreateCommentRequest) (newCommentID : String) :
    Except String Comment × AppState :=
  match findUser s userID with
  | none => (Except.error "user not found", s)
  | some _ =>
    match findPost s req.postID with
    | none => (Except.error "post not found", s)
    | some _ =>
      let parentCheck : Except String Unit :=
        match req.parentID with
        | none => Except.ok ()
        | some pid =>
          if pid == "" then Except.ok ()
          else
            match s.comments.find? fun c => c.id == pid with
            | none => Except.error "parent comment not found"
            | some parent =>
              if parent.postID != req.postID then
                Except.error "parent comment does not belong to this post"
              else Except.ok ()
      match parentCheck with
      | Except.error e => (Except.error e, s)
      | Except.ok _ =>
        let comment : Comment :=
          { id := newCommentID, postID := req.postID, userID := userID,
            parentID := req.parentID, content := req.content }
        let s₁ := { s with comments := s.comments ++ [comment] }
        let s₂ := updatePostEngagementScore s₁ req.postID
        (Except.ok comment, s₂)

/-- `postViewService.TrackView`: validate user and post, return success
without touching anything when a view row for (post, user) already
exists, otherwise create the view row and call
`UpdatePostEngagementScore`. -/
def trackView (s : AppState) (userID postID : String) :
    Except String Unit × AppState :=
  match findUser s userID with
  | none => (Except.error "user not found", s)
  | some _ =>
    match findPost s postID with
    | none => (Except.error "post not found", s)
    | some _ =>
      match s.views.find? fun v => v.postID == postID && v.userID == userID with
      | some _ => (Except.ok (), s)
      | none =>
        let s₁ := { s with views := s.views ++ [{ postID := postID, userID := userID }] }
        let s₂ := updatePostEngagementScore s₁ postID
        (Except.ok (), s₂)

/-- A small concrete database: two users, one ungrouped post `p1`
already viewed by `u2`, and one group post `g1`; the engagement index
holds only `p1`, as the creation path put it there. -/
def sampleState : AppState :=
  { users := ["u1", "u2"],
    posts :=
      [{ id := "p1", userID := "u1", groupID := none, createdAtUnix := 1700000000 },
       { id := "g1", userID := "u1", groupID := some "grp1", createdAtUnix := 1700000100 }],
    likes := [],
    comments := [],
    views := [{ postID := "p1", userID := "u2" }],
    redis :=
      { sortedSet := [("p1", finalScore 1 1700000000)],
        scoreCache := [("p1", 1)] } }

/-- C1: for every count triple the raw engagement score is exactly
`likes*2 + comments*3 + views*1`, and the bulk rebuild path, the
incremental single-post path and the degraded in-memory fallback path all
compute that same value. -/
theorem raw_score_formula_all_paths_agree (likeCount commentCount viewCount : Int) :
    rebuildRawScore likeCount commentCount viewCount
        = likeCount * 2 + commentCount * 3 + viewCount * 1
      ∧ incrementalRawScore likeCount commentCount viewCount
        = rebuildRawScore likeCount commentCount viewCount
      ∧ fallbackRawScore likeCount commentCount viewCount
        = rebuildRawScore likeCount commentCount viewCount := by
  refine ⟨rfl, rfl, rfl⟩

/-- C6 (counterexample): with raw scores differing by exactly 1, a large
enough creation-timestamp gap (here `2*10^12` seconds) makes the
lower-scored post's composite key strictly exceed the higher-scored one:
the tie-break term is unbounded in the timestamp and can invert a
raw-score difference of 1. -/
theorem tie_break_inverts_score_gap_at_large_timestamp :
    (0 : Int) + 1 ≤ 1 ∧ finalScore 1 0 < finalScore 0 2000000000000 := by
  constructor
  · norm_num
  · norm_num [finalScore, tieBreakScore]

/-- C6 (amended): provided both creation timestamps are nonnegative and
below `10^12` seconds (which covers every realistic Unix timestamp
through the year 33658), a raw-score difference of at least 1 always
dominates the tie-break term: the post with the higher raw score has the
strictly higher composite key. -/
theorem score_gap_dominates_tie_break_for_bounded_timestamps
    (raw₁ raw₂ t₁ t₂ : Int)
    (hraw : raw₂ + 1 ≤ raw₁)
    (h₁lo : 0 ≤ t₁) (h₁hi : t₁ < 1000000000000)
    (h₂lo : 0 ≤ t₂) (h₂hi : t₂ < 1000000000000) :
    finalScore raw₂ t₂ < finalScore raw₁ t₁ := by
  unfold finalScore tieBreakScore
  have hr : (raw₂ : ℚ) + 1 ≤ (raw₁ : ℚ) := by exact_mod_cast hraw
  have h1 : (0 : ℚ) ≤ (t₁ : ℚ) := by exact_mod_cast h₁lo
  have h2 : (t₂ : ℚ) < 1000000000000 := by exact_mod_cast h₂hi
  have hden : (0 : ℚ) < 1000000 := by norm_num
  have ht₁ : (0 : ℚ) ≤ (t₁ : ℚ) / 1000000 := by positivity
  have ht₂ : (t₂ : ℚ) / 1000000 < 1000000 := by
    rw [div_lt_iff hden]; linarith
  linarith

/-- Witness for the amended C6 statement at a concrete input. -/
theorem score_gap_dominates_tie_break_witness :
    finalScore 0 999 < finalScore 1 0 :=
  score_gap_dominates_tie_break_for_bounded_timestamps 1 0 0 999
    (by norm_num) (by norm_num) (by norm_num) (by norm_num) (by norm_num)

/-- At equal raw score the composite key is strictly monotone in the
creation timestamp. -/
theorem finalScore_strictMono_in_time {s t₁ t₂ : Int} (h : t₁ < t₂) :
    finalScore s t₁ < finalScore s t₂ := by
  unfold finalScore tieBreakScore
  have hc : (t₁ : ℚ) < (t₂ : ℚ) := by exact_mod_cast h
  rw [div_eq_mul_inv, div_eq_mul_inv]
  have := mul_lt_mul_of_pos_right hc (by norm_num : (0 : ℚ) < (1000000 : ℚ)⁻¹)
  linarith

/-- C5: on both ranking paths, a post with the same raw score but a
strictly later creation timestamp occupies a strictly earlier rank.
First conjunct: any list sorted descending by the composite key (the
sorted-index path). Second conjunct: any list sorted by the fallback
comparator (the degraded in-memory path). -/
theorem equal_score_later_post_ranks_first :
    (∀ (l : List ScoredPost), sortedByCompositeDesc l →
      ∀ (i j : Fin l.length),
        (l.get i).score = (l.get j).score →
        (l.get j).createdAtUnix < (l.get i).createdAtUnix →
        (i : ℕ) < (j : ℕ))
    ∧ (∀ (l : List ScoredPost), sortedByFallbackLess l →
      ∀ (i j : Fin l.length),
        (l.get i).score = (l.get j).score →
        (l.get j).createdAtUnix < (l.get i).createdAtUnix →
        (i : ℕ) < (j : ℕ)) := by
  constructor
  · intro l hl i j hscore htime
    by_contra hij
    push_neg at hij
    rcases lt_or_eq_of_le hij with hji | hji
    · have hpair := (List.pairwise_iff_get.mp hl) j i hji
      have hlt : finalScore (l.get j).score (l.get j).createdAtUnix
          < finalScore (l.get i).score (l.get i).createdAtUnix := by
        rw [← hscore]
        exact finalScore_strictMono_in_time htime
      exact absurd hpair (not_le_of_lt hlt)
    · have : i = j := Fin.ext hji.symm
      subst this
      exact absurd htime (lt_irrefl _)
  · intro l hl i j hscore htime
    by_contra hij
    push_neg at hij
    rcases lt_or_eq_of_le hij with hji | hji
    · have hpair := (List.pairwise_iff_get.mp hl) j i hji
      unfold fallbackLess at hpair
      rw [hscore] at hpair
      simp at hpair
      exact absurd htime (by simpa using hpair)
    · have : i = j := Fin.ext hji.symm
      subst this
      exact absurd htime (lt_irrefl _)

/-- Witness for C5 on a concrete two-element ranked list: the newer of
two score-5 posts sits at rank 0, the older at rank 1, on both paths. -/
theorem equal_score_later_post_ranks_first_witness :
    ((0 : ℕ) < (1 : ℕ)) ∧ ((0 : ℕ) < (1 : ℕ)) := by
  refine ⟨?_, ?_⟩
  · exact equal_score_later_post_ranks_first.1
      [⟨"newer", 5, 200⟩, ⟨"older", 5, 100⟩]
      (by unfold sortedByCompositeDesc
          norm_num [List.pairwise_cons, finalScore, tieBreakScore])
      ⟨0, by norm_num⟩ ⟨1, by norm_num⟩ (by norm_num [List.get]) (by norm_num [List.get])
  · exact equal_score_later_post_ranks_first.2
      [⟨"newer", 5, 200⟩, ⟨"older", 5, 100⟩]
      (by unfold sortedByFallbackLess
          norm_num [List.pairwise_cons, fallbackLess])
      ⟨0, by norm_num⟩ ⟨1, by norm_num⟩ (by norm_num [List.get]) (by norm_num [List.get])

/-- For a positive `limit` the Redis read
`ZRevRange(key, offset, offset+limit-1)` is the plain slice
`(ranked.drop offset).take limit`. -/
theorem zrevrange_window (ranked : List String) (limit offset : ℕ)
    (hlim : 1 ≤ limit) :
    zrevrange ranked offset ((offset : Int) + limit - 1)
      = (ranked.drop offset).take limit := by
  unfold zrevrange
  have hstart : ¬ ((offset : Int) < 0) := by omega
  have hstop : ¬ ((offset : Int) + limit - 1 < 0) := by omega
  simp only [if_neg hstart, if_neg hstop]
  by_cases hoff : ranked.length ≤ offset
  · have hcond : ((offset : Int) > min ((offset : Int) + limit - 1) ((ranked.length : Int) - 1)
        ∨ (offset : Int) ≥ (ranked.length : Int)) := by
      right; exact_mod_cast hoff
    rw [if_pos hcond, List.drop_eq_nil_of_le hoff, List.take_nil]
  · push_neg at hoff
    have hcond : ¬ ((offset : Int) > min ((offset : Int) + limit - 1) ((ranked.length : Int) - 1)
        ∨ (offset : Int) ≥ (ranked.length : Int)) := by
      push_neg
      refine ⟨le_min (by omega) (by omega), by omega⟩
    rw [if_neg hcond]
    have htake : (min ((offset : Int) + limit - 1) ((ranked.length : Int) - 1)
        - offset + 1).toNat = min limit (ranked.length - offset) := by omega
    have htoNat : ((offset : Int)).toNat = offset := Int.toNat_natCast offset
    rw [htake, htoNat]
    rw [List.take_eq_take.mpr]
    rw [List.length_drop]
    omega

/-- For a positive `limit` every window served by `FindFeedByEngagement`
is the plain slice `(ranked.drop offset).take limit`, whichever of the
three internal steps produced it. -/
theorem findFeedWindowIDs_eq_slice (ranked : List String) (limit offset : ℕ)
    (hlim : 1 ≤ limit) :
    findFeedWindowIDs ranked limit offset = (ranked.drop offset).take limit := by
  unfold findFeedWindowIDs
  rw [zrevrange_window ranked limit offset hlim]
  by_cases hids : (ranked.drop offset).take limit = []
  · rw [if_pos hids, if_pos hids]
    have hdrop : ranked.drop offset = [] := by
      rcases List.take_eq_nil_iff.mp hids with h | h
      · omega
      · exact h
    have hlen : ranked.length ≤ offset := List.drop_eq_nil_iff_le.mp hdrop
    unfold fallbackSlice
    split_ifs <;> simp [hdrop]
  · rw [if_neg hids]

/-- C9 (counterexample): with `limit = 0` the Redis call is
`ZRevRange(key, 0, -1)`, whose `-1` means "last element", so every
zero-limit window returns the entire ranked population and concatenating
the windows duplicates every post instead of reproducing the sequence. -/
theorem pagination_limit_zero_duplicates :
    findFeedWindowIDs ["a"] 0 0 = ["a"]
      ∧ concatWindows ["a"] 0 2 = ["a", "a"]
      ∧ ¬ (concatWindows ["a"] 0 2).Nodup := by
  refine ⟨by decide, by decide, by decide⟩

/-- C9 (amended): for every positive `limit`, concatenating the
sequential windows `(limit, 0), (limit, limit), (limit, 2*limit), …`
(enough of them to cover the population) reproduces the entire ranked
sequence exactly — no duplicates, no gaps. -/
theorem pagination_windows_reconstruct_feed
    (ranked : List String) (limit numWindows : ℕ)
    (hlim : 1 ≤ limit) (hcover : ranked.length ≤ numWindows * limit) :
    concatWindows ranked limit numWindows = ranked := by
  unfold concatWindows
  induction numWindows generalizing ranked with
  | zero =>
    have : ranked = [] := List.eq_nil_of_length_eq_zero (by omega)
    simp [this]
  | succ k ih =>
    rw [List.range_succ_eq_map, List.flatMap_cons,
      List.flatMap_map Nat.succ (fun a => findFeedWindowIDs ranked limit (a * limit))]
    have h0 : findFeedWindowIDs ranked limit (0 * limit) = ranked.take limit := by
      rw [findFeedWindowIDs_eq_slice ranked limit (0 * limit) hlim]
      simp
    rw [h0]
    have hshift : ∀ a : ℕ, findFeedWindowIDs ranked limit (Nat.succ a * limit)
        = findFeedWindowIDs (ranked.drop limit) limit (a * limit) := by
      intro a
      rw [findFeedWindowIDs_eq_slice ranked limit (Nat.succ a * limit) hlim,
        findFeedWindowIDs_eq_slice (ranked.drop limit) limit (a * limit) hlim,
        List.drop_drop]
      congr 1
      rw [Nat.succ_mul, Nat.add_comm]
    simp only [hshift]
    rw [ih (ranked.drop limit) ?_]
    · rw [List.take_append_drop]
    · rw [List.length_drop]
      have hmul : (k + 1) * limit = k * limit + limit := by
        rw [Nat.succ_mul]
      omega

/-- Witness for the amended C9 statement: two windows of limit 2 over a
three-post population reproduce it exactly. -/
theorem pagination_windows_reconstruct_feed_witness :
    concatWindows ["a", "b", "c"] 2 2 = ["a", "b", "c"] :=
  pagination_windows_reconstruct_feed ["a", "b", "c"] 2 2
    (by norm_num) (by norm_num)

/-- Each single hub step emits exactly the events the transition of the
session count prescribes. -/
theorem hubStep_events_eq_transition (e : HubEntry) (op : HubOp) :
    (hubStep e op).2 =
      (if sessionCount e = 0 ∧ sessionCount (hubStep e op).1 ≠ 0 then [true]
       else if sessionCount e ≠ 0 ∧ sessionCount (hubStep e op).1 = 0 then [false]
       else []) := by
  cases op with
  | register c =>
    cases e with
    | none =>
      simp [hubStep, hubRegister, sessionCount]
    | some inner =>
      by_cases hmem : inner.any fun t => t.clientID == c.clientID
      · have hne : ¬ inner.isEmpty := by
          cases inner with
          | nil => simp at hmem
          | cons a t => simp [List.isEmpty]
        have hlen : inner.length ≠ 0 := by
          cases inner with
          | nil => simp [List.isEmpty] at hne
          | cons a t => simp
        simp [hubStep, hubRegister, sessionCount, hmem, hne, hlen]
      · cases inner with
        | nil => simp [hubStep, hubRegister, sessionCount, hmem, List.isEmpty]
        | cons a t =>
          simp [hubStep, hubRegister, sessionCount, hmem, List.isEmpty]
  | unregister c =>
    cases e with
    | none =>
      simp [hubStep, hubUnregister, sessionCount]
    | some inner =>
      by_cases hmem : inner.any fun t => t.clientID == c.clientID
      · have hlen : inner.length ≠ 0 := by
          cases inner with
          | nil => simp at hmem
          | cons a t => simp
        simp only [hubStep, hubUnregister]
        rw [if_pos hmem]
        by_cases hemp : (inner.filter fun t => t.clientID != c.clientID).isEmpty
        · rw [if_pos hemp]
          simp [sessionCount, hlen]
        · rw [if_neg hemp]
          have hlen' : (inner.filter fun t => t.clientID != c.clientID).length ≠ 0 := by
            cases hfilter : inner.filter fun t => t.clientID != c.clientID with
            | nil => rw [hfilter] at hemp; simp at hemp
            | cons a t => simp
          simp [sessionCount, hlen, hlen']
      · simp only [hubStep, hubUnregister]
        rw [if_neg hmem]
        simp [sessionCount]

/-- C2: for every sequence of register and unregister operations on one
user, the hub loop emits an online event exactly at each session-count
transition from zero to non-zero, an offline event exactly at each
transition from non-zero back to zero, and nothing for operations that
keep the count positive (or zero). -/
theorem hub_presence_events_exactly_on_transitions
    (e : HubEntry) (ops : List HubOp) :
    (hubRun e ops).2 = specTransitionEvents e ops := by
  induction ops generalizing e with
  | nil => rfl
  | cons op rest ih =>
    show (hubStep e op).2 ++ (hubRun (hubStep e op).1 rest).2 = _
    rw [hubStep_events_eq_transition e op, ih (hubStep e op).1]
    rfl

/-- C7: the outbound queue capacity is exactly 256, and delivering one
envelope treats every target session independently and without blocking:
each session whose queue has room receives exactly the new envelope
appended, each session whose queue is full is closed and removed from
the registry, and no session's outcome depends on any other session. -/
theorem slow_consumer_eviction_delivery :
    clientSendCapacity = 256
    ∧ (∀ (sessions : List Client) (msg : ℕ),
        deliverToSessions sessions msg =
          sessions.filterMap fun c =>
            if c.send.length < clientSendCapacity
            then some { c with send := c.send ++ [msg] } else none)
    ∧ (∀ (sessions : List Client) (msg : ℕ) (c : Client),
        c ∈ sessions → c.send.length < clientSendCapacity →
        { c with send := c.send ++ [msg] } ∈ deliverToSessions sessions msg) := by
  refine ⟨rfl, ?_, ?_⟩
  · intro sessions msg
    induction sessions with
    | nil => rfl
    | cons c rest ih =>
      by_cases hc : c.send.length < clientSendCapacity
      · simp only [deliverToSessions, if_pos hc, List.filterMap_cons, ih]
      · simp only [deliverToSessions, if_neg hc, List.filterMap_cons, ih]
  · intro sessions msg c hmem hroom
    induction sessions with
    | nil => simp at hmem
    | cons a rest ih =>
      rcases List.mem_cons.mp hmem with hac | hrest
      · subst hac
        simp only [deliverToSessions, if_pos hroom]
        exact List.mem_cons_self _ _
      · by_cases ha : a.send.length < clientSendCapacity
        · simp only [deliverToSessions, if_pos ha]
          exact List.mem_cons_of_mem _ (ih hrest)
        · simp only [deliverToSessions, if_neg ha]
          exact ih hrest

/-- Witness for C7, applying the per-session delivery conclusion at a
concrete session with room in its queue. -/
theorem slow_consumer_eviction_delivery_witness :
    ({ clientID := 0, send := [5] } : Client)
      ∈ deliverToSessions [{ clientID := 0, send := [] }] 5 :=
  slow_consumer_eviction_delivery.2.2
    [{ clientID := 0, send := [] }] 5 { clientID := 0, send := [] }
    (by simp) (by simp [clientSendCapacity])

set_option maxRecDepth 8000 in
/-- C8 (code violates the claim): a user with one registered session
whose queue is already full satisfies the invariant, but delivering one
envelope to that user evicts the session while leaving the user's key in
`h.clients` — the user is still listed online with zero registered
sessions, so the invariant is not preserved by the send-path
slow-consumer eviction. -/
theorem eviction_breaks_online_invariant :
    hubPresenceInvariant (some [{ clientID := 0, send := List.replicate 256 0 }])
    ∧ hubSendToUser (some [{ clientID := 0, send := List.replicate 256 0 }]) 7 = some []
    ∧ ¬ hubPresenceInvariant
        (hubSendToUser (some [{ clientID := 0, send := List.replicate 256 0 }]) 7) := by
  refine ⟨?_, ?_, ?_⟩
  · constructor
    · intro _
      simp [sessionCount]
    · intro _
      simp [listedOnline]
  · show some (deliverToSessions [{ clientID := 0, send := List.replicate 256 0 }] 7) = some []
    have hfull : ¬ (List.replicate 256 (0 : ℕ)).length < clientSendCapacity := by
      simp [clientSendCapacity]
    simp only [deliverToSessions]
    rw [if_neg hfull]
  · intro hinv
    have h1 : listedOnline (hubSendToUser
        (some [{ clientID := 0, send := List.replicate 256 0 }]) 7) = true := by
      simp [hubSendToUser, listedOnline]
    have h2 := hinv.mp h1
    have hfull : ¬ (List.replicate 256 (0 : ℕ)).length < clientSendCapacity := by
      simp [clientSendCapacity]
    apply h2
    show sessionCount (some (deliverToSessions
      [{ clientID := 0, send := List.replicate 256 0 }] 7)) = 0
    simp only [deliverToSessions]
    rw [if_neg hfull]
    rfl

/-- C3 (code violates the claim): neither `likeService.LikePost` nor
`likeService.UnlikePost` ever touches the engagement score state — for
every state and input the Redis engagement keys after a like create or
delete equal the ones before, even though the operations succeed and
mutate the like rows (shown at a concrete input). Neither function
calls `UpdatePostEngagementScore`. -/
theorem like_paths_never_update_engagement_score :
    (∀ (s : AppState) (userID postID reaction newLikeID : String),
      (likeServiceLikePost s userID postID reaction newLikeID).2.redis = s.redis)
    ∧ (∀ (s : AppState) (userID postID : String),
      (likeServiceUnlikePost s userID postID).2.redis = s.redis)
    ∧ (likeServiceLikePost sampleState "u2" "p1" "like" "l1").1
        = Except.ok
            { id := "l1", userID := "u2", targetType := "post",
              targetID := "p1", reaction := "like" }
    ∧ (likeServiceLikePost sampleState "u2" "p1" "like" "l1").2.likes.length = 1 := by
  refine ⟨?_, ?_, rfl, rfl⟩
  · intro s userID postID reaction newLikeID
    unfold likeServiceLikePost
    repeat' split
    all_goals try rfl
    all_goals dsimp only
    all_goals repeat' split
    all_goals rfl
  · intro s userID postID
    unfold likeServiceUnlikePost
    repeat' split
    all_goals rfl

/-- C4 (code violates the claim): `g1` is a group post absent from the
global engagement sorted set, yet creating a comment on it succeeds and
inserts `g1` into the global sorted set, because
`commentService.CreateComment` calls `UpdatePostEngagementScore`
unconditionally and that function never checks group membership. -/
theorem comment_on_group_post_inserts_into_global_index :
    (findPost sampleState "g1" = some
      { id := "g1", userID := "u1", groupID := some "grp1", createdAtUnix := 1700000100 })
    ∧ (sampleState.redis.sortedSet.any fun q => q.1 == "g1") = false
    ∧ (commentServiceCreateComment sampleState "u2"
        { postID := "g1", parentID := none, content := "hi" } "c1").1
        = Except.ok
            { id := "c1", postID := "g1", userID := "u2",
              parentID := none, content := "hi" }
    ∧ ((commentServiceCreateComment sampleState "u2"
        { postID := "g1", parentID := none, content := "hi" } "c1").2.redis.sortedSet.any
          fun q => q.1 == "g1") = true := by
  exact ⟨rfl, rfl, rfl, rfl⟩

/-- C10: once a view row for (post, user) exists, a repeated
`TrackView` by the same user for the same post returns success and
leaves the entire state — view rows and engagement score keys included —
exactly as it was: no duplicate view, no score recomputation. -/
theorem track_view_idempotent (s : AppState) (userID postID : String)
    (hu : (findUser s userID).isSome = true)
    (hp : (findPost s postID).isSome = true)
    (hv : (s.views.find? fun v => v.postID == postID && v.userID == userID).isSome = true) :
    trackView s userID postID = (Except.ok (), s) := by
  unfold trackView
  cases hfu : findUser s userID with
  | none => rw [hfu] at hu; simp at hu
  | some u =>
    cases hfp : findPost s postID with
    | none => rw [hfp] at hp; simp at hp
    | some p =>
      cases hfv : s.views.find? fun v => v.postID == postID && v.userID == userID with
      | none => rw [hfv] at hv; simp at hv
      | some v => rfl

/-- Witness for C10: `u2` has already viewed `p1` in `sampleState`, and
a repeated `TrackView` is a no-op that reports success. -/
theorem track_view_idempotent_witness :
    trackView sampleState "u2" "p1" = (Except.ok (), sampleState) :=
  track_view_idempotent sampleState "u2" "p1" rfl rfl rfl

end LostMedia
